import Mathlib

/-!
Verification development for `src/examples/plot.py` (the `func` repository's
plotting utility).  The script is embedded shallowly: lines of the input file
are lists of characters, Python's `str.strip` / `str.split(" ")` / `float(...)`
are modelled as executable Lean functions, and the script's control flow
(argument check, per-column list comprehensions, the two `plt.plot` calls and
`plt.show`) is modelled as functions producing explicit results and event
traces.
-/

namespace Plot

/-! ### Python string primitives -/

/-- Python `str.strip()`: remove leading and trailing whitespace
(modelled for ASCII whitespace via `Char.isWhitespace`). -/
def pyStrip (cs : List Char) : List Char :=
  ((cs.dropWhile Char.isWhitespace).reverse.dropWhile Char.isWhitespace).reverse

/-- Python `str.split(" ")`: split on every single space character.
Consecutive spaces yield empty tokens; the result is always nonempty
(`"".split(" ") == ['']`). -/
def splitSpace : List Char → List (List Char)
  | [] => [[]]
  | c :: cs =>
    if c = ' ' then [] :: splitSpace cs
    else
      match splitSpace cs with
      | [] => [[c]]
      | t :: ts => (c :: t) :: ts

/-! ### Python `float(...)` on a string

Python's `float` strips surrounding whitespace, accepts an optional sign,
then either `inf`/`infinity`/`nan` (case-insensitively) or a decimal literal
`digits [. digits] [(e|E) [sign] digits]` in which underscores may appear
between digits.  Finite values are modelled exactly as rationals. -/

/-- Value produced by Python `float(...)`: a finite value (modelled as the
exact rational denoted by the literal), a signed infinity, or a NaN. -/
inductive PyVal where
  | num (q : ℚ)
  | inf (neg : Bool)
  | nan
deriving DecidableEq, Repr

/-- Characters allowed inside a digit run: digits and underscores. -/
def isDU (c : Char) : Bool := c.isDigit || c = '_'

/-- Tail of a valid digit run after its first digit: every character is a
digit, or an underscore that is followed by a further digit run. -/
def goodTail : List Char → Bool
  | [] => true
  | '_' :: c :: cs => c.isDigit && goodTail cs
  | c :: cs => c.isDigit && goodTail cs

/-- A valid digit run: nonempty, starts with a digit, and underscores occur
only between digits. -/
def goodRun : List Char → Bool
  | [] => false
  | c :: cs => c.isDigit && goodTail cs

/-- Numeric value of a digit run, ignoring underscores. -/
def runVal (run : List Char) : ℕ :=
  (run.filter (· ≠ '_')).foldl (fun a c => 10 * a + (c.toNat - 48)) 0

/-- Number of digits in a digit run (underscores excluded). -/
def runLen (run : List Char) : ℕ := (run.filter (· ≠ '_')).length

/-- Exact rational value of a decimal literal with integer digits `intRaw`,
fractional digits `fracRaw` and decimal exponent `e`: the mantissa
`intRaw ++ fracRaw` scaled by `10 ^ (e - |fracRaw|)`. -/
def mkVal (intRaw fracRaw : List Char) (e : ℤ) : ℚ :=
  let m : ℕ := runVal intRaw * 10 ^ runLen fracRaw + runVal fracRaw
  let s : ℤ := e - (runLen fracRaw : ℤ)
  if 0 ≤ s then mkRat ((m : ℤ) * (10 : ℤ) ^ s.toNat) 1
  else mkRat (m : ℤ) (10 ^ (-s).toNat)

/-- Parse the exponent suffix of a Python float literal: empty means exponent
`0`; otherwise `e`/`E`, an optional sign, and a valid digit run reaching the
end of the string. -/
def parseExp : List Char → Option ℤ
  | [] => some 0
  | c :: rest =>
    if c = 'e' ∨ c = 'E' then
      let p : Bool × List Char :=
        match rest with
        | '+' :: r => (false, r)
        | '-' :: r => (true, r)
        | _ => (false, rest)
      if goodRun p.2 then
        some (if p.1 then -(runVal p.2 : ℤ) else (runVal p.2 : ℤ))
      else none
    else none

/-- Parse the numeric body of a Python float literal (after sign removal):
integer digits, an optional fractional part, and an optional exponent, with
at least one digit before the exponent. -/
def parseNumBody (cs : List Char) : Option ℚ :=
  let intRaw := cs.takeWhile isDU
  let r1 := cs.dropWhile isDU
  if intRaw.isEmpty = false && goodRun intRaw = false then none
  else
    match r1 with
    | '.' :: r2 =>
      let fracRaw := r2.takeWhile isDU
      let r3 := r2.dropWhile isDU
      if fracRaw.isEmpty = false && goodRun fracRaw = false then none
      else if intRaw.isEmpty && fracRaw.isEmpty then none
      else
        match parseExp r3 with
        | some e => some (mkVal intRaw fracRaw e)
        | none => none
    | _ =>
      if intRaw.isEmpty then none
      else
        match parseExp r1 with
        | some e => some (mkVal intRaw [] e)
        | none => none

/-- Python `float(s)` after whitespace stripping: optional sign, then
`inf`/`infinity`/`nan` case-insensitively, or a decimal literal. -/
def pyFloatCore (cs : List Char) : Option PyVal :=
  let p : Bool × List Char :=
    match cs with
    | '+' :: r => (false, r)
    | '-' :: r => (true, r)
    | _ => (false, cs)
  let low := p.2.map Char.toLower
  if low = "inf".toList ∨ low = "infinity".toList then some (.inf p.1)
  else if low = "nan".toList then some .nan
  else
    match parseNumBody p.2 with
    | some q => some (.num (if p.1 then -q else q))
    | none => none

/-- Python `float(s)`: `none` models the `ValueError` raised on an invalid
literal. -/
def pyFloat (cs : List Char) : Option PyVal := pyFloatCore (pyStrip cs)

/-! ### The script's parsing pipeline -/

/-- Field extraction `float(x.split(" ")[i])` for a (stripped) line `x`:
`none` models both the `IndexError` (fewer than `i + 1` tokens) and the
`ValueError` (invalid literal). -/
def fieldAt (l : List Char) (i : ℕ) : Option PyVal :=
  match (splitSpace l)[i]? with
  | some t => pyFloat t
  | none => none

/-- A list comprehension `[f(x) for x in xs]` where `f` may raise: the whole
comprehension fails as soon as `f` fails on some element. -/
def mapOpt (f : α → Option β) : List α → Option (List β)
  | [] => some []
  | x :: xs =>
    match f x with
    | none => none
    | some y =>
      match mapOpt f xs with
      | none => none
      | some ys => some (y :: ys)

/-- The stripped data lines of the file, header discarded:
`lines = [line.strip() for line in f.readlines()]` followed by `lines[1:]`. -/
def dataLines (raw : List (List Char)) : List (List Char) :=
  (raw.map pyStrip).drop 1

/-- The three column comprehensions, in the script's order: the `domain`
column from token 0, then the two `range` columns from tokens 1 and 2.
`none` models an unhandled exception while building some column. -/
def colsOf (ds : List (List Char)) :
    Option (List PyVal × List PyVal × List PyVal) :=
  match mapOpt (fieldAt · 0) ds with
  | none => none
  | some dom =>
    match mapOpt (fieldAt · 1) ds with
    | none => none
    | some ra =>
      match mapOpt (fieldAt · 2) ds with
      | none => none
      | some rb => some (dom, ra, rb)

/-- The Input Reader: from the raw file lines to the `domain`, `rangeA`,
`rangeB` column arrays. -/
def readColumns (raw : List (List Char)) :
    Option (List PyVal × List PyVal × List PyVal) :=
  colsOf (dataLines raw)

/-- An observable plotting action: a `plt.plot(xs, ys, '-')` call or the
final `plt.show()`. -/
inductive PlotEvent where
  | plot (xs ys : List PyVal)
  | showWin
deriving DecidableEq, Repr

/-- The script's execution after the file is read, as written: build the
domain column, build the first range column, call `plt.plot`, build the
second range column, call `plt.plot`, call `plt.show`.  Returns the plotting
calls actually made and whether the run completed without an exception. -/
def runFile (raw : List (List Char)) : List PlotEvent × Bool :=
  let ds := dataLines raw
  match mapOpt (fieldAt · 0) ds with
  | none => ([], false)
  | some dom =>
    match mapOpt (fieldAt · 1) ds with
    | none => ([], false)
    | some ra =>
      match mapOpt (fieldAt · 2) ds with
      | none => ([.plot dom ra], false)
      | some rb => ([.plot dom ra, .plot dom rb, .showWin], true)

/-! ### Command-line entry -/

/-- Result of the argument check at the top of the script. -/
inductive CliStep where
  | usageExit (msg : List Char)
  | openFile (name : List Char)
  | argvCrash
deriving DecidableEq, Repr

/-- The script's entry: with one or more than two `argv` entries it prints
`usage: <program> <filename>` and exits cleanly (no file is opened);
otherwise it proceeds to open `argv[1]`.  `usageExit` carries exactly the
text printed; `argvCrash` models the `IndexError` when `argv` is empty. -/
def cliMain (argv : List (List Char)) : CliStep :=
  if argv.length = 1 ∨ 2 < argv.length then
    .usageExit ("usage: ".toList ++ argv.headD [] ++ " <filename>".toList)
  else
    match argv[1]? with
    | some f => .openFile f
    | none => .argvCrash

/-! ### Auxiliary notions used only in theorem statements -/

/-- Auxiliary state-passing loop for `wsTokens`. -/
def wsTokensAux (cur : List Char) : List Char → List (List Char)
  | [] => if cur.isEmpty then [] else [cur.reverse]
  | c :: cs =>
    if c.isWhitespace then
      if cur.isEmpty then wsTokensAux [] cs else cur.reverse :: wsTokensAux [] cs
    else wsTokensAux (c :: cur) cs

/-- The specification's notion of "whitespace-separated tokens" (Python
`str.split()` with no argument): split on maximal runs of whitespace,
producing no empty tokens.  Used only to compare the spec's tokenization
with the script's `split(" ")`. -/
def wsTokens (cs : List Char) : List (List Char) := wsTokensAux [] cs

/-- Join tokens with single spaces (inverse of `splitSpace` on space-free
tokens); used to state that a line truncated to its first three tokens
parses identically. -/
def joinSpace : List (List Char) → List Char
  | [] => []
  | [t] => t
  | t :: ts => t ++ ' ' :: joinSpace ts

/-- The spec's Scenario 1 input file: a header line and three data lines. -/
def exFile : List (List Char) :=
  ["header".toList, "0 1 2".toList, "1 2 4".toList, "2 3 8".toList]

/-- Expected `domain` column for `exFile`. -/
def exDomain : List PyVal := [.num 0, .num 1, .num 2]

/-- Expected `rangeA` column for `exFile`. -/
def exRangeA : List PyVal := [.num 1, .num 2, .num 3]

/-- Expected `rangeB` column for `exFile`. -/
def exRangeB : List PyVal := [.num 2, .num 4, .num 8]

/-- Expected plotting trace for `exFile`: both curves against the same
x-values, then the display call. -/
def exEvents : List PlotEvent :=
  [.plot exDomain exRangeA, .plot exDomain exRangeB, .showWin]

end Plot


namespace Plot

/-! ### Helper lemmas -/

theorem mapOpt_eq_none {α β : Type} {f : α → Option β} :
    ∀ {xs : List α}, mapOpt f xs = none ↔ ∃ x ∈ xs, f x = none := by
  intro xs
  induction xs with
  | nil => simp [mapOpt]
  | cons x xs ih =>
    simp only [mapOpt]
    cases hfx : f x with
    | none => simp [hfx]
    | some y =>
      cases hm : mapOpt f xs with
      | none =>
        simp only [List.mem_cons]
        constructor
        · intro _
          obtain ⟨z, hz, hfz⟩ := ih.mp hm
          exact ⟨z, Or.inr hz, hfz⟩
        · intro _; trivial
      | some ys =>
        simp only [List.mem_cons, reduceCtorEq, false_iff, not_exists]
        rintro z ⟨rfl | hz, hfz⟩
        · exact absurd hfx (by simp [hfz])
        · exact absurd (ih.mpr ⟨z, hz, hfz⟩) (by simp [hm])

theorem mapOpt_length {α β : Type} {f : α → Option β} :
    ∀ {xs : List α} {ys : List β}, mapOpt f xs = some ys → ys.length = xs.length := by
  intro xs
  induction xs with
  | nil => intro ys h; simp [mapOpt] at h; simp [← h]
  | cons x xs ih =>
    intro ys h
    simp only [mapOpt] at h
    cases hfx : f x with
    | none => rw [hfx] at h; exact absurd h (by simp)
    | some y =>
      rw [hfx] at h
      cases hm : mapOpt f xs with
      | none => rw [hm] at h; exact absurd h (by simp)
      | some zs =>
        rw [hm] at h
        obtain rfl : y :: zs = ys := by simpa using h
        simp [ih hm]

theorem mapOpt_getElem {α β : Type} {f : α → Option β} :
    ∀ {xs : List α} {ys : List β}, mapOpt f xs = some ys →
      ∀ i : ℕ, i < xs.length →
        ∃ x y, xs[i]? = some x ∧ ys[i]? = some y ∧ f x = some y := by
  intro xs
  induction xs with
  | nil => intro ys _ i hi; exact absurd hi (by simp)
  | cons x xs ih =>
    intro ys h i hi
    simp only [mapOpt] at h
    cases hfx : f x with
    | none => rw [hfx] at h; exact absurd h (by simp)
    | some y =>
      rw [hfx] at h
      cases hm : mapOpt f xs with
      | none => rw [hm] at h; exact absurd h (by simp)
      | some zs =>
        rw [hm] at h
        obtain rfl : y :: zs = ys := by simpa using h
        cases i with
        | zero => exact ⟨x, y, by simp, by simp, hfx⟩
        | succ j =>
          obtain ⟨a, b, ha, hb, hab⟩ := ih hm j (by simpa using hi)
          exact ⟨a, b, by simpa using ha, by simpa using hb, hab⟩

theorem mapOpt_middle {α β : Type} {f : α → Option β} {l l' : α}
    (h : f l = f l') :
    ∀ (a b : List α), mapOpt f (a ++ l :: b) = mapOpt f (a ++ l' :: b) := by
  intro a b
  induction a with
  | nil => simp only [List.nil_append, mapOpt, h]
  | cons x a ih =>
    have e1 : mapOpt f ((x :: a) ++ l :: b)
        = match f x with
          | none => none
          | some y =>
            match mapOpt f (a ++ l :: b) with
            | none => none
            | some ys => some (y :: ys) := rfl
    have e2 : mapOpt f ((x :: a) ++ l' :: b)
        = match f x with
          | none => none
          | some y =>
            match mapOpt f (a ++ l' :: b) with
            | none => none
            | some ys => some (y :: ys) := rfl
    rw [e1, e2, ih]

theorem dataLines_length (raw : List (List Char)) :
    (dataLines raw).length = raw.length - 1 := by
  simp [dataLines]

theorem splitSpace_ne_nil : ∀ cs : List Char, splitSpace cs ≠ [] := by
  intro cs
  induction cs with
  | nil => simp [splitSpace]
  | cons c cs ih =>
    by_cases hc : c = ' '
    · subst hc; simp [splitSpace]
    · simp only [splitSpace, if_neg hc]
      cases hs : splitSpace cs <;> simp

theorem splitSpace_no_space :
    ∀ (cs : List Char), ∀ t ∈ splitSpace cs, ' ' ∉ t := by
  intro cs
  induction cs with
  | nil =>
    intro t ht
    simp only [splitSpace, List.mem_singleton] at ht
    simp [ht]
  | cons c cs ih =>
    intro t ht
    by_cases hc : c = ' '
    · subst hc
      simp only [splitSpace, if_pos rfl] at ht
      rcases List.mem_cons.mp ht with rfl | ht
      · simp
      · exact ih t ht
    · simp only [splitSpace, if_neg hc] at ht
      cases hs : splitSpace cs with
      | nil => exact absurd hs (by simp [splitSpace_ne_nil])
      | cons t0 ts =>
        rw [hs] at ht
        rcases List.mem_cons.mp ht with rfl | ht
        · intro hmem
          rcases List.mem_cons.mp hmem with h1 | h1
          · exact hc h1.symm
          · exact ih t0 (hs ▸ List.mem_cons_self _ _) h1
        · exact ih t (hs ▸ List.mem_cons.mpr (Or.inr ht))


theorem splitSpace_of_no_space :
    ∀ {t : List Char}, ' ' ∉ t → splitSpace t = [t] := by
  intro t
  induction t with
  | nil => intro _; rfl
  | cons c cs ih =>
    intro h
    have hc : c ≠ ' ' := fun h1 => h (h1 ▸ List.mem_cons_self _ _)
    have hcs : splitSpace cs = [cs] :=
      ih (fun h1 => h (List.mem_cons.mpr (Or.inr h1)))
    simp [splitSpace, if_neg hc, hcs]

theorem splitSpace_append_space {t : List Char} (h : ' ' ∉ t) :
    ∀ r : List Char, splitSpace (t ++ ' ' :: r) = t :: splitSpace r := by
  induction t with
  | nil => intro r; simp [splitSpace]
  | cons c cs ih =>
    intro r
    have hc : c ≠ ' ' := fun h1 => h (h1 ▸ List.mem_cons_self _ _)
    have hcs := ih (fun h1 => h (List.mem_cons.mpr (Or.inr h1))) r
    simp only [List.cons_append, splitSpace, if_neg hc]
    rw [show cs.append (' ' :: r) = cs ++ ' ' :: r from rfl, hcs]

theorem splitSpace_joinSpace :
    ∀ {ts : List (List Char)}, ts ≠ [] → (∀ t ∈ ts, ' ' ∉ t) →
      splitSpace (joinSpace ts) = ts := by
  intro ts
  induction ts with
  | nil => intro h; exact absurd rfl h
  | cons t ts ih =>
    intro _ hns
    cases ts with
    | nil =>
      simp only [joinSpace]
      exact splitSpace_of_no_space (hns t (List.mem_cons_self _ _))
    | cons t2 ts2 =>
      have hjoin : joinSpace (t :: t2 :: ts2) = t ++ ' ' :: joinSpace (t2 :: ts2) := rfl
      rw [hjoin, splitSpace_append_space (hns t (List.mem_cons_self _ _)),
        ih (by simp) (fun u hu => hns u (List.mem_cons.mpr (Or.inr hu)))]

theorem dropWhile_append_all {p : Char → Bool} :
    ∀ {ws l : List Char}, (∀ c ∈ ws, p c = true) →
      (ws ++ l).dropWhile p = l.dropWhile p := by
  intro ws
  induction ws with
  | nil => intro l _; simp
  | cons c ws ih =>
    intro l h
    have hc : p c = true := h c (List.mem_cons_self _ _)
    simp only [List.cons_append, List.dropWhile_cons, hc, if_true]
    exact ih (fun d hd => h d (List.mem_cons.mpr (Or.inr hd)))

theorem field_failure_iff {l : List Char} :
    (fieldAt l 0 = none ∨ fieldAt l 1 = none ∨ fieldAt l 2 = none) ↔
      ((splitSpace l).length < 3 ∨ ∃ t ∈ (splitSpace l).take 3, pyFloat t = none) := by
  rcases hs : splitSpace l with _ | ⟨a, _ | ⟨b, _ | ⟨c, rest⟩⟩⟩ <;>
    simp [fieldAt, hs]

theorem colsOf_none_or {ds : List (List Char)} :
    colsOf ds = none ↔
      mapOpt (fieldAt · 0) ds = none ∨ mapOpt (fieldAt · 1) ds = none
        ∨ mapOpt (fieldAt · 2) ds = none := by
  unfold colsOf
  cases h0 : mapOpt (fieldAt · 0) ds <;> cases h1 : mapOpt (fieldAt · 1) ds <;>
    cases h2 : mapOpt (fieldAt · 2) ds <;> simp

end Plot

namespace Plot

/-! ### Claim theorems -/

/-- C1: for the input file with lines `header`, `0 1 2`, `1 2 4`, `2 3 8`,
the reader produces `domain = [0, 1, 2]`, `rangeA = [1, 2, 3]`,
`rangeB = [2, 4, 8]`, and the plotter is given two curves (domain vs rangeA,
then domain vs rangeB) sharing the same x-values. -/
theorem C1_scenario_file :
    readColumns exFile = some (exDomain, exRangeA, exRangeB)
    ∧ runFile exFile = (exEvents, true) := by
  decide

/-- C7: for a file containing exactly one line (the header), the reader
yields three empty column arrays and raises no parse error. -/
theorem C7_header_only_file :
    readColumns ["header".toList] = some ([], [], []) := by
  decide

/-- C9: for a completely empty input file the reader does not fail: it
yields three empty column arrays, identically to a header-only file. -/
theorem C9_empty_file :
    readColumns ([] : List (List Char)) = some ([], [], [])
    ∧ readColumns ([] : List (List Char)) = readColumns ["header".toList] := by
  decide

/-- C3: the reader fails with a parse error if and only if some data line
has fewer than 3 (single-space-separated) tokens or one of its first three
tokens is not a valid float literal; in particular a data line with only two
tokens fails, and one with a non-numeric first token fails. -/
theorem C3_parse_error_iff :
    (∀ raw : List (List Char),
      readColumns raw = none ↔
        ∃ l ∈ dataLines raw,
          ((splitSpace l).length < 3
            ∨ ∃ t ∈ (splitSpace l).take 3, pyFloat t = none))
    ∧ readColumns ["header".toList, "0 1".toList] = none
    ∧ readColumns ["header".toList, "abc 1 2".toList] = none := by
  refine ⟨fun raw => ?_, by decide, by decide⟩
  unfold readColumns
  rw [colsOf_none_or, mapOpt_eq_none, mapOpt_eq_none, mapOpt_eq_none]
  constructor
  · rintro (⟨l, hl, hf⟩ | ⟨l, hl, hf⟩ | ⟨l, hl, hf⟩)
    · exact ⟨l, hl, field_failure_iff.mp (Or.inl hf)⟩
    · exact ⟨l, hl, field_failure_iff.mp (Or.inr (Or.inl hf))⟩
    · exact ⟨l, hl, field_failure_iff.mp (Or.inr (Or.inr hf))⟩
  · rintro ⟨l, hl, h⟩
    rcases field_failure_iff.mpr h with hf | hf | hf
    · exact Or.inl ⟨l, hl, hf⟩
    · exact Or.inr (Or.inl ⟨l, hl, hf⟩)
    · exact Or.inr (Or.inr ⟨l, hl, hf⟩)

/-- C2: whenever the run completes, the plotter was handed exactly two
curves and the display call, each curve holding one point per data line
(`number of file lines − 1`), with point `i` coming from data line `i`, in
file order. -/
theorem C2_points_per_curve :
    ∀ (raw : List (List Char)) (evts : List PlotEvent),
      runFile raw = (evts, true) →
      ∃ dom ra rb : List PyVal,
        evts = [.plot dom ra, .plot dom rb, .showWin]
        ∧ dom.length = raw.length - 1
        ∧ ra.length = raw.length - 1
        ∧ rb.length = raw.length - 1
        ∧ ∀ i : ℕ, i < raw.length - 1 →
            ∃ l, (dataLines raw)[i]? = some l
              ∧ dom[i]? = fieldAt l 0 ∧ ra[i]? = fieldAt l 1
              ∧ rb[i]? = fieldAt l 2 := by
  intro raw evts h
  simp only [runFile] at h
  cases h0 : mapOpt (fieldAt · 0) (dataLines raw) with
  | none => rw [h0] at h; exact absurd h (by simp)
  | some dom =>
    rw [h0] at h
    cases h1 : mapOpt (fieldAt · 1) (dataLines raw) with
    | none => rw [h1] at h; exact absurd h (by simp)
    | some ra =>
      rw [h1] at h
      cases h2 : mapOpt (fieldAt · 2) (dataLines raw) with
      | none => rw [h2] at h; exact absurd h (by simp)
      | some rb =>
        rw [h2] at h
        injection h with hevts _
        refine ⟨dom, ra, rb, hevts.symm, ?_, ?_, ?_, ?_⟩
        · rw [mapOpt_length h0, dataLines_length]
        · rw [mapOpt_length h1, dataLines_length]
        · rw [mapOpt_length h2, dataLines_length]
        · intro i hi
          have hlen : i < (dataLines raw).length := by
            rw [dataLines_length]; exact hi
          obtain ⟨x0, y0, hx0, hy0, hf0⟩ := mapOpt_getElem h0 i hlen
          obtain ⟨x1, y1, hx1, hy1, hf1⟩ := mapOpt_getElem h1 i hlen
          obtain ⟨x2, y2, hx2, hy2, hf2⟩ := mapOpt_getElem h2 i hlen
          rw [hx0] at hx1 hx2
          obtain rfl : x0 = x1 := Option.some.inj hx1
          obtain rfl : x0 = x2 := Option.some.inj hx2
          exact ⟨x0, hx0, by rw [hy0, hf0], by rw [hy1, hf1], by rw [hy2, hf2]⟩

/-- Witness for C2 at the Scenario 1 file. -/
theorem C2_points_per_curve_witness :
    ∃ dom ra rb : List PyVal,
      exEvents = [.plot dom ra, .plot dom rb, .showWin]
      ∧ dom.length = exFile.length - 1
      ∧ ra.length = exFile.length - 1
      ∧ rb.length = exFile.length - 1
      ∧ ∀ i : ℕ, i < exFile.length - 1 →
          ∃ l, (dataLines exFile)[i]? = some l
            ∧ dom[i]? = fieldAt l 0 ∧ ra[i]? = fieldAt l 1
            ∧ rb[i]? = fieldAt l 2 :=
  C2_points_per_curve exFile exEvents (by decide)

/-- C4: with zero or more than one positional argument the script prints
`usage: <program> <filename>` and exits cleanly without opening a file
(the `usageExit` outcome). -/
theorem C4_usage_exit :
    ∀ (prog : List Char) (args : List (List Char)),
      args.length = 0 ∨ 1 < args.length →
      cliMain (prog :: args)
        = .usageExit ("usage: ".toList ++ prog ++ " <filename>".toList) := by
  intro prog args h
  have hcond : (prog :: args).length = 1 ∨ 2 < (prog :: args).length := by
    rcases h with h | h
    · exact Or.inl (by simp [h])
    · refine Or.inr ?_
      simp only [List.length_cons]
      omega
  unfold cliMain
  rw [if_pos hcond]
  simp

/-- Witness for C4 with no positional arguments. -/
theorem C4_usage_exit_witness :
    cliMain ["plot.py".toList]
      = .usageExit ("usage: ".toList ++ "plot.py".toList ++ " <filename>".toList) :=
  C4_usage_exit "plot.py".toList [] (Or.inl rfl)

end Plot

namespace Plot

/-- C5 counterexample: the data line `1  2 3` (two spaces after the `1`)
has whitespace-separated tokens `1`, `2`, `3`, all valid float literals,
yet the reader fails on it — the script splits on single spaces, not on
whitespace runs, so the claim is false as stated. -/
theorem C5_counterexample :
    3 ≤ (wsTokens "1  2 3".toList).length
    ∧ (((wsTokens "1  2 3".toList).take 3).all fun t => (pyFloat t).isSome)
        = true
    ∧ readColumns ["h".toList, "1  2 3".toList] = none := by
  decide

/-- C5 (amended): each data line is split on single space characters; for
every data line whose first three single-space-separated tokens are valid
float literals, parsing succeeds and yields exactly those three numbers. -/
theorem C5_single_space_success :
    ∀ (l t0 t1 t2 : List Char) (rest : List (List Char)) (v0 v1 v2 : PyVal),
      splitSpace l = t0 :: t1 :: t2 :: rest →
      pyFloat t0 = some v0 → pyFloat t1 = some v1 → pyFloat t2 = some v2 →
      fieldAt l 0 = some v0 ∧ fieldAt l 1 = some v1 ∧ fieldAt l 2 = some v2
        ∧ colsOf [l] = some ([v0], [v1], [v2]) := by
  intro l t0 t1 t2 rest v0 v1 v2 hs h0 h1 h2
  have f0 : fieldAt l 0 = some v0 := by simp [fieldAt, hs, h0]
  have f1 : fieldAt l 1 = some v1 := by simp [fieldAt, hs, h1]
  have f2 : fieldAt l 2 = some v2 := by simp [fieldAt, hs, h2]
  exact ⟨f0, f1, f2, by simp [colsOf, mapOpt, f0, f1, f2]⟩

/-- Witness for the amended C5 at the line `1 2 3`. -/
theorem C5_single_space_success_witness :
    fieldAt "1 2 3".toList 0 = some (.num 1)
    ∧ fieldAt "1 2 3".toList 1 = some (.num 2)
    ∧ fieldAt "1 2 3".toList 2 = some (.num 3)
    ∧ colsOf ["1 2 3".toList] = some ([.num 1], [.num 2], [.num 3]) :=
  C5_single_space_success "1 2 3".toList "1".toList "2".toList "3".toList []
    (.num 1) (.num 2) (.num 3) (by decide) (by decide) (by decide) (by decide)

/-- C6 counterexample: on the file `h`, `1 2 x` the reader fails (the third
token `x` is not a number), yet the first curve has already been handed to
the plotter — the script plots `domain` vs `rangeA` before building the
third column, so the claim that no plotting call precedes the failure is
false as stated. -/
theorem C6_counterexample :
    readColumns ["h".toList, "1 2 x".toList] = none
    ∧ (runFile ["h".toList, "1 2 x".toList]).1
        = [.plot [.num 1] [.num 2]] := by
  decide

/-- C6 (amended): when any data line fails to parse the run aborts: the
display call is never reached and the second curve is never handed to the
plotter; if the failure occurs while building the domain or first range
column no plotting call is made at all, while a failure confined to the
third fields occurs only after the first curve has been handed to the
plotter. -/
theorem C6_failure_trace :
    ∀ raw : List (List Char),
      readColumns raw = none →
      (runFile raw).2 = false
      ∧ PlotEvent.showWin ∉ (runFile raw).1
      ∧ (runFile raw).1.length ≤ 1
      ∧ (∀ dom ra, mapOpt (fieldAt · 0) (dataLines raw) = some dom →
          mapOpt (fieldAt · 1) (dataLines raw) = some ra →
          (runFile raw).1 = [.plot dom ra])
      ∧ ((mapOpt (fieldAt · 0) (dataLines raw) = none
          ∨ mapOpt (fieldAt · 1) (dataLines raw) = none) →
          (runFile raw).1 = []) := by
  intro raw hfail
  unfold readColumns colsOf at hfail
  simp only [runFile]
  cases h0 : mapOpt (fieldAt · 0) (dataLines raw) with
  | none => simp [h0]
  | some dom =>
    rw [h0] at hfail
    cases h1 : mapOpt (fieldAt · 1) (dataLines raw) with
    | none => simp [h1]
    | some ra =>
      rw [h1] at hfail
      cases h2 : mapOpt (fieldAt · 2) (dataLines raw) with
      | none =>
        refine ⟨rfl, by simp, by simp, ?_, ?_⟩
        · intro dom2 ra2 hd hr
          obtain rfl : dom = dom2 := Option.some.inj hd
          obtain rfl : ra = ra2 := Option.some.inj hr
          rfl
        · rintro (hc | hc) <;> exact absurd hc (by simp)
      | some rb => rw [h2] at hfail; exact absurd hfail (by simp)

/-- Witness for the amended C6 on the file `h`, `1 2 x`. -/
theorem C6_failure_trace_witness :
    (runFile ["h".toList, "1 2 x".toList]).2 = false
    ∧ PlotEvent.showWin ∉ (runFile ["h".toList, "1 2 x".toList]).1
    ∧ (runFile ["h".toList, "1 2 x".toList]).1.length ≤ 1
    ∧ (∀ dom ra,
        mapOpt (fieldAt · 0) (dataLines ["h".toList, "1 2 x".toList]) = some dom →
        mapOpt (fieldAt · 1) (dataLines ["h".toList, "1 2 x".toList]) = some ra →
        (runFile ["h".toList, "1 2 x".toList]).1 = [.plot dom ra])
    ∧ ((mapOpt (fieldAt · 0) (dataLines ["h".toList, "1 2 x".toList]) = none
        ∨ mapOpt (fieldAt · 1) (dataLines ["h".toList, "1 2 x".toList]) = none) →
        (runFile ["h".toList, "1 2 x".toList]).1 = []) :=
  C6_failure_trace ["h".toList, "1 2 x".toList] (by decide)

/-- C8: on a data line with more than three tokens the tokens after the
third are ignored: the line truncated to its first three tokens splits back
into exactly those tokens, and substituting the truncated line for the
original anywhere among the data lines leaves the three column arrays
unchanged (the extra tokens need not be numeric). -/
theorem C8_extra_tokens_ignored :
    ∀ (l : List Char) (ds1 ds2 : List (List Char)),
      3 < (splitSpace l).length →
      splitSpace (joinSpace ((splitSpace l).take 3)) = (splitSpace l).take 3
      ∧ colsOf (ds1 ++ joinSpace ((splitSpace l).take 3) :: ds2)
          = colsOf (ds1 ++ l :: ds2) := by
  intro l ds1 ds2 hlen
  rcases hs : splitSpace l with _ | ⟨t0, _ | ⟨t1, _ | ⟨t2, rest⟩⟩⟩ <;>
    rw [hs] at hlen
  · simp at hlen
  · simp at hlen
  · simp at hlen
  · have hmem : ∀ t ∈ [t0, t1, t2], t ∈ splitSpace l := by
      intro t ht
      rw [hs]
      rcases List.mem_cons.mp ht with rfl | ht
      · exact List.mem_cons_self _ _
      rcases List.mem_cons.mp ht with rfl | ht
      · exact List.mem_cons.mpr (Or.inr (List.mem_cons_self _ _))
      rcases List.mem_cons.mp ht with rfl | ht
      · exact List.mem_cons.mpr (Or.inr (List.mem_cons.mpr
          (Or.inr (List.mem_cons_self _ _))))
      · exact absurd ht (List.not_mem_nil t)
    have hnosp : ∀ t ∈ [t0, t1, t2], ' ' ∉ t :=
      fun t ht => splitSpace_no_space l t (hmem t ht)
    have hsplit : splitSpace (joinSpace [t0, t1, t2]) = [t0, t1, t2] :=
      splitSpace_joinSpace (by simp) hnosp
    have hf : ∀ i : ℕ, i < 3 →
        fieldAt (joinSpace [t0, t1, t2]) i = fieldAt l i := by
      intro i hi
      unfold fieldAt
      rw [hsplit, hs]
      interval_cases i <;> simp
    rw [show List.take 3 (t0 :: t1 :: t2 :: rest) = [t0, t1, t2] from rfl]
    refine ⟨hsplit, ?_⟩
    unfold colsOf
    rw [@mapOpt_middle (List Char) PyVal (fieldAt · 0) (joinSpace [t0, t1, t2])
        l (hf 0 (by omega)) ds1 ds2,
      @mapOpt_middle (List Char) PyVal (fieldAt · 1) (joinSpace [t0, t1, t2])
        l (hf 1 (by omega)) ds1 ds2,
      @mapOpt_middle (List Char) PyVal (fieldAt · 2) (joinSpace [t0, t1, t2])
        l (hf 2 (by omega)) ds1 ds2]

/-- Witness for C8 at the line `1 2 3 junk`. -/
theorem C8_extra_tokens_ignored_witness :
    splitSpace (joinSpace ((splitSpace "1 2 3 junk".toList).take 3))
        = (splitSpace "1 2 3 junk".toList).take 3
    ∧ colsOf ([] ++ joinSpace ((splitSpace "1 2 3 junk".toList).take 3) :: [])
        = colsOf ([] ++ "1 2 3 junk".toList :: []) :=
  C8_extra_tokens_ignored "1 2 3 junk".toList [] [] (by decide)

/-- C10: every line is stripped of leading (as well as trailing) whitespace
before being split, so a data line prefixed with whitespace parses to the
same fields as the same line without the prefix. -/
theorem C10_leading_whitespace :
    ∀ ws l : List Char,
      (∀ c ∈ ws, c.isWhitespace = true) →
      pyStrip (ws ++ l) = pyStrip l
      ∧ ∀ i : ℕ, fieldAt (pyStrip (ws ++ l)) i = fieldAt (pyStrip l) i := by
  intro ws l h
  have hstrip : pyStrip (ws ++ l) = pyStrip l := by
    unfold pyStrip
    rw [dropWhile_append_all h]
  exact ⟨hstrip, fun i => by rw [hstrip]⟩

/-- Witness for C10: a space-and-tab prefix on the line `1 2 3`. -/
theorem C10_leading_whitespace_witness :
    pyStrip (" \t".toList ++ "1 2 3".toList) = pyStrip "1 2 3".toList
    ∧ ∀ i : ℕ, fieldAt (pyStrip (" \t".toList ++ "1 2 3".toList)) i
        = fieldAt (pyStrip "1 2 3".toList) i :=
  C10_leading_whitespace " \t".toList "1 2 3".toList (by decide)

end Plot
